import Mathlib

/-!
Verification of the in-memory workload-clusters mux
(`test/infrastructure/inmemory/internal/server`, file shown as
`src/unnamed/part_000`).

The Go code is shallowly embedded: the `WorkloadClustersMux` receiver becomes
an explicit state value threaded through each operation, Go maps become
association lists with first-match lookup and in-place replacement (which is
what assignment through a map of pointers does), `sets.Set[string]` becomes a
duplicate-free list, and fallible external collaborators (certificate
generation, socket bind, serve start, the two `http.Server.Shutdown` calls)
become boolean/`Option` oracles supplied by the caller, since their bodies are
outside the shown sources.  Go `int` ports are modelled as `Int`; no port
arithmetic in the shown code can overflow a 64-bit integer for the ranges the
claims exercise, so no wrap-around is modelled.
-/

/-- Go map read `m[k]`: first matching key wins (keys are unique in every map
the code builds, since writes go through `mset`). -/
def mapGet {α : Type} : List (String × α) → String → Option α
  | [], _ => none
  | (k1, v1) :: rest, k => if k1 = k then some v1 else mapGet rest k

/-- Go map write `m[k] = v`: replace the binding if the key is present,
otherwise append it. -/
def mset {α : Type} : List (String × α) → String → α → List (String × α)
  | [], k, v => [(k, v)]
  | (k1, v1) :: rest, k, v =>
      if k1 = k then (k, v) :: rest else (k1, v1) :: mset rest k v

/-- `sets.Set[string].Insert`: idempotent insertion. -/
def setInsert (s : List String) (x : String) : List String :=
  if x ∈ s then s else s ++ [x]

/-! ## Data model -/

/-- The declarative certificate profile handed to `newCertAndKey`
(`apiServerCertificateConfig`, `adminClientCertificateConfig`,
`etcdServerCertificateConfig` in the Go code). -/
inductive CertConfig : Type
  | apiServer (host : String)
  | adminClient
  | etcdServer (podName host : String)
  deriving DecidableEq, Repr

/-- An issued certificate (and, interchangeably, its private key): crypto is
opaque here, so a certificate is identified by the CA material and profile it
was minted from.  `caCert`/`caKey` are the opaque tokens standing for the
`*x509.Certificate` / `*rsa.PrivateKey` arguments. -/
structure TLSCertificate : Type where
  caCert : Nat
  caKey : Nat
  config : CertConfig
  deriving DecidableEq, Repr

/-- Modelled from the spec: `newCertAndKey(caCert, caKey, profile)` is an
external collaborator (its body is not in the shown sources); the `ok` oracle
says whether generation (including the subsequent `tls.X509KeyPair`
conversion) succeeds on this call. -/
def newCertAndKey (ok : Bool) (caCert caKey : Nat) (config : CertConfig) :
    Except String TLSCertificate :=
  if ok then Except.ok { caCert := caCert, caKey := caKey, config := config }
  else Except.error "failed to create certificate"

/-- `WorkloadClusterListener` (the Listener Record).  The struct itself lives
in a file not among the shown sources, but every field is fixed by its uses in
`part_000`; `listener` is the bound OS socket (`net.Listener`), modelled by
the address it is bound to. -/
structure WorkloadClusterListener : Type where
  host : String
  port : Int
  apiServers : List String
  etcdMembers : List String
  apiServerCaCertificate : Option Nat
  apiServerCaKey : Option Nat
  apiServerServingCertificate : Option TLSCertificate
  adminCertificate : Option TLSCertificate
  adminKey : Option TLSCertificate
  etcdServingCertificates : List (String × TLSCertificate)
  listener : Option String
  deriving DecidableEq, Repr

/-- Modelled from the spec: `WorkloadClusterListener.HostPort()` (defined in a
file not among the shown sources) joins the host and port of the record, giving the
key of the reverse index. -/
def hostPortOf (w : WorkloadClusterListener) : String :=
  w.host ++ ":" ++ toString w.port

/-- `WorkloadClustersMux` (the Registry): per-cluster records, the reverse
host:port-to-name index, and the port cursor.  The `manager`, lock, logger and
the two `http.Server` values carry no state any claim observes and are left
out of the state. -/
structure WorkloadClustersMux : Type where
  host : String
  minPort : Int
  maxPort : Int
  portIndex : Int
  workloadClusterListeners : List (String × WorkloadClusterListener)
  workloadClusterNameByHost : List (String × String)
  deriving DecidableEq, Repr

/-- `NewWorkloadClustersMux`: fresh registry over the fixed 20000-24000
range. -/
def newWorkloadClustersMux (host : String) : WorkloadClustersMux :=
  { host := host
    minPort := 20000
    maxPort := 24000
    portIndex := 20000
    workloadClusterListeners := []
    workloadClusterNameByHost := [] }

/-- Store a record back under its name (in Go this is invisible: the map holds
a pointer and the method mutates through it; every mutation of a fetched
record is modelled by an explicit write-back). -/
def writeListener (m : WorkloadClustersMux) (n : String)
    (w : WorkloadClusterListener) : WorkloadClustersMux :=
  { m with workloadClusterListeners := mset m.workloadClusterListeners n w }

/-! ## Operations -/

/-- `getFreePortLocked`: return the cursor and advance it, or fail once the
cursor passed `maxPort`. -/
def getFreePortLocked (m : WorkloadClustersMux) :
    Except String (Int × WorkloadClustersMux) :=
  let port := m.portIndex
  if port > m.maxPort then
    Except.error ("no more free ports in the " ++ toString m.minPort ++ "-" ++
      toString m.maxPort ++ " range")
  else
    Except.ok (port, { m with portIndex := m.portIndex + 1 })

/-- `initWorkloadClusterListenerWithPortLocked`: create a fresh record for
`wclName` at `port` and register it in both maps. -/
def initWorkloadClusterListenerWithPortLocked (m : WorkloadClustersMux)
    (wclName : String) (port : Int) :
    WorkloadClusterListener × WorkloadClustersMux :=
  let wcl : WorkloadClusterListener :=
    { host := m.host
      port := port
      apiServers := []
      etcdMembers := []
      apiServerCaCertificate := none
      apiServerCaKey := none
      apiServerServingCertificate := none
      adminCertificate := none
      adminKey := none
      etcdServingCertificates := []
      listener := none }
  (wcl,
    { m with
      workloadClusterListeners := mset m.workloadClusterListeners wclName wcl
      workloadClusterNameByHost :=
        mset m.workloadClusterNameByHost (hostPortOf wcl) wclName })

/-- `InitWorkloadClusterListener`: return the existing record, or allocate a
port and create a `RESERVED` record. -/
def InitWorkloadClusterListener (m : WorkloadClustersMux) (wclName : String) :
    Except String WorkloadClusterListener × WorkloadClustersMux :=
  match mapGet m.workloadClusterListeners wclName with
  | some wcl => (Except.ok wcl, m)
  | none =>
    match getFreePortLocked m with
    | Except.error e => (Except.error e, m)
    | Except.ok (port, m1) =>
      let r := initWorkloadClusterListenerWithPortLocked m1 wclName port
      (Except.ok r.1, r.2)

/-- The `InMemoryCluster` items handed to `HotRestart`: only the fields the
function reads (`Namespace`/`Name` feed error messages,
`Annotations`, `Spec.ControlPlaneEndpoint.Host`, `Spec.ControlPlaneEndpoint.Port`). -/
structure InMemoryCluster : Type where
  clusterNamespace : String
  name : String
  annotations : List (String × String)
  host : String
  port : Int
  deriving DecidableEq, Repr

/-- `infrav1.ResourceGroupAnnotationName` (declared outside the shown
sources; its concrete value is irrelevant, only used as a map key). -/
def resourceGroupAnnotationName : String :=
  "inmemorycluster.infrastructure.cluster.x-k8s.io/resource-group"

/-- The annotation lookup `c.Annotations[infrav1.ResourceGroupAnnotationName]`
performed by `HotRestart`. -/
def resourceGroupOf (c : InMemoryCluster) : Option String :=
  mapGet c.annotations resourceGroupAnnotationName

/-- The loop body of `HotRestart`.  `ports` is the `sets.Set[int]` the Go code
declares for duplicate detection; faithfully to the source, nothing is ever
inserted into it, so it stays as initialized.  `maxSeen` is the running
`maxPort` local; on loop exit `m.portIndex = maxSeen + 1` is applied. -/
def hotRestartLoop (ports : List Int) (maxSeen : Int) (m : WorkloadClustersMux) :
    List InMemoryCluster → Except String Unit × WorkloadClustersMux
  | [] => (Except.ok (), { m with portIndex := maxSeen + 1 })
  | c :: rest =>
    if c.host = "" then
      hotRestartLoop ports maxSeen m rest
    else if c.host ≠ m.host then
      (Except.error ("unable to restart the WorkloadClustersMux, the host address is changed from "
        ++ c.host ++ " to " ++ m.host), m)
    else if c.port ∈ ports then
      (Except.error ("unable to restart the WorkloadClustersMux, there are two or more clusters using port "
        ++ toString c.port), m)
    else
      match mapGet c.annotations resourceGroupAnnotationName with
      | none =>
        (Except.error ("unable to restart the WorkloadClustersMux, cluster "
          ++ c.clusterNamespace ++ "/" ++ c.name ++ " does not have the "
          ++ resourceGroupAnnotationName ++ " annotation"), m)
      | some resourceGroup =>
        let m1 := (initWorkloadClusterListenerWithPortLocked m resourceGroup c.port).2
        hotRestartLoop ports (if maxSeen < c.port then c.port else maxSeen) m1 rest

/-- `HotRestart`: no-op on an empty list; rejected when any record exists;
otherwise run the reconciliation loop. -/
def HotRestart (m : WorkloadClustersMux) (clusters : List InMemoryCluster) :
    Except String Unit × WorkloadClustersMux :=
  if clusters.length = 0 then (Except.ok (), m)
  else if 0 < m.workloadClusterListeners.length then
    (Except.error "WorkloadClustersMux cannot be hot restarted when there are already initialized listeners", m)
  else
    hotRestartLoop [] (m.minPort - 1) m clusters

/-- `getCertificate`: the TLS `GetCertificate` callback, as a function of the
local address of the connection and the requested server name.  A Go
`(*tls.Certificate, error)` return becomes `Except String (Option TLSCertificate)`:
`.ok none` is the `nil, nil` return. -/
def getCertificate (m : WorkloadClustersMux) (localAddr serverName : String) :
    Except String (Option TLSCertificate) :=
  match mapGet m.workloadClusterNameByHost localAddr with
  | none =>
    Except.error ("failed to get listener name for workload cluster serving on " ++ localAddr)
  | some wclName =>
    match mapGet m.workloadClusterListeners wclName with
    | none =>
      Except.error ("failed to get listener with name " ++ wclName ++
        " for workload cluster serving on " ++ localAddr)
    | some wcl =>
      if serverName ∈ wcl.etcdMembers then
        Except.ok (mapGet wcl.etcdServingCertificates serverName)
      else
        Except.ok wcl.apiServerServingCertificate

/-- Which of the two downstream handlers a request is dispatched to. -/
inductive HandlerKind : Type
  | etcd
  | api
  deriving DecidableEq, Repr

/-- The dispatch decision of `mixedHandler`, as a function of a request by its
major protocol version (`r.ProtoMajor`) and the value of its content-type
header (`r.Header.Get` returns the empty string when the header is absent). -/
def routeRequest (protoMajor : Nat) (contentType : String) : HandlerKind :=
  if protoMajor == 2 && String.isPrefixOf "application/grpc" contentType then
    HandlerKind.etcd
  else
    HandlerKind.api

/-- Oracles and attempt trace for `Shutdown`.  `debugErr`/`muxErr` say what
`debugServer.Shutdown(ctx)` / `muxServer.Shutdown(ctx)` would return if
called; the two flags record which of the calls were actually made. -/
structure ShutdownOutcome : Type where
  result : Except String Unit
  debugAttempted : Bool
  muxAttempted : Bool
  deriving Repr

/-- `Shutdown`: shut the debug server down, returning its wrapped error if it
fails; only then shut the mux server down. -/
def Shutdown (debugErr muxErr : Option String) : ShutdownOutcome :=
  match debugErr with
  | some e =>
    { result := Except.error ("failed to shutdown the debug server: " ++ e)
      debugAttempted := true
      muxAttempted := false }
  | none =>
    match muxErr with
    | some e =>
      { result := Except.error ("failed to shutdown the mux server: " ++ e)
        debugAttempted := true
        muxAttempted := true }
    | none =>
      { result := Except.ok ()
        debugAttempted := true
        muxAttempted := true }

/-- The environment oracle for one `AddAPIServer` call: whether serving-cert
generation, admin-cert generation, the `net.Listen` bind, and the `ServeTLS`
start succeed. -/
structure APIServerEnv : Type where
  servingCertOk : Bool
  adminCertOk : Bool
  bindOk : Bool
  serveOk : Bool
  deriving DecidableEq, Repr

/-- `AddAPIServer`: record the identity, (re)store the CA material, lazily
mint the serving and admin certificates, and bind + start the listener on
first success.  Mutations made before an early error return stay in place, as
they do through the record pointer in Go. -/
def AddAPIServer (m : WorkloadClustersMux) (wclName podName : String)
    (caCert caKey : Nat) (env : APIServerEnv) :
    Except String Unit × WorkloadClustersMux :=
  match mapGet m.workloadClusterListeners wclName with
  | none =>
    (Except.error ("workloadClusterListener with name " ++ wclName ++
      " must be initialized before adding an APIserver"), m)
  | some w0 =>
    let w1 : WorkloadClusterListener :=
      { w0 with
        apiServers := setInsert w0.apiServers podName
        apiServerCaCertificate := some caCert
        apiServerCaKey := some caKey }
    match (if w1.apiServerServingCertificate.isSome then Except.ok w1
           else
             match newCertAndKey env.servingCertOk caCert caKey (CertConfig.apiServer w1.host) with
             | Except.error e =>
               Except.error ("failed to create serving certificate for API server " ++ podName ++ ": " ++ e)
             | Except.ok c =>
               Except.ok { w1 with apiServerServingCertificate := some c }) with
    | Except.error e => (Except.error e, writeListener m wclName w1)
    | Except.ok w2 =>
      match (if w2.adminCertificate.isSome then Except.ok w2
             else
               match newCertAndKey env.adminCertOk caCert caKey CertConfig.adminClient with
               | Except.error e =>
                 Except.error ("failed to create admin certificate for API server " ++ podName ++ ": " ++ e)
               | Except.ok c =>
                 Except.ok { w2 with adminCertificate := some c, adminKey := some c }) with
      | Except.error e => (Except.error e, writeListener m wclName w2)
      | Except.ok w3 =>
        if w3.listener.isSome then
          (Except.ok (), writeListener m wclName w3)
        else if env.bindOk then
          let w4 := { w3 with listener := some (hostPortOf w3) }
          if env.serveOk then
            (Except.ok (), writeListener m wclName w4)
          else
            (Except.error ("failed to start WorkloadClusterListener " ++ wclName),
              writeListener m wclName w4)
        else
          (Except.error ("failed to start WorkloadClusterListener " ++ wclName ++ ", " ++ hostPortOf w3),
            writeListener m wclName w3)

/-- `AddEtcdMember`: record the member identity and lazily mint its dedicated
serving certificate. -/
def AddEtcdMember (m : WorkloadClustersMux) (wclName podName : String)
    (caCert caKey : Nat) (certOk : Bool) :
    Except String Unit × WorkloadClustersMux :=
  match mapGet m.workloadClusterListeners wclName with
  | none =>
    (Except.error ("workloadClusterListener with name " ++ wclName ++
      " must be initialized before adding an APIserver"), m)
  | some w0 =>
    let w1 := { w0 with etcdMembers := setInsert w0.etcdMembers podName }
    if (mapGet w1.etcdServingCertificates podName).isSome then
      (Except.ok (), writeListener m wclName w1)
    else
      match newCertAndKey certOk caCert caKey (CertConfig.etcdServer podName w1.host) with
      | Except.error e =>
        (Except.error ("failed to create serving certificate for etcd member " ++ podName ++ ": " ++ e),
          writeListener m wclName w1)
      | Except.ok c =>
        (Except.ok (), writeListener m wclName
          { w1 with etcdServingCertificates := mset w1.etcdServingCertificates podName c })

/-! ## Traces of administrative operations -/

/-- One administrative call, with the outcome oracles for its external
collaborators baked in. -/
inductive MuxOp : Type
  | initListener (wclName : String)
  | addAPIServer (wclName podName : String) (caCert caKey : Nat) (env : APIServerEnv)
  | addEtcdMember (wclName podName : String) (caCert caKey : Nat) (certOk : Bool)
  | hotRestart (clusters : List InMemoryCluster)
  deriving DecidableEq, Repr

/-- Apply one operation, keeping the post-state whether or not the call
errored (exactly what happens to the Go receiver). -/
def applyOp (m : WorkloadClustersMux) : MuxOp → WorkloadClustersMux
  | MuxOp.initListener n => (InitWorkloadClusterListener m n).2
  | MuxOp.addAPIServer n p c k env => (AddAPIServer m n p c k env).2
  | MuxOp.addEtcdMember n p c k ok => (AddEtcdMember m n p c k ok).2
  | MuxOp.hotRestart cs => (HotRestart m cs).2

/-- Run a sequence of administrative operations. -/
def runOps (m : WorkloadClustersMux) : List MuxOp → WorkloadClustersMux
  | [] => m
  | op :: rest => runOps (applyOp m op) rest

/-- The record `initWorkloadClusterListenerWithPortLocked` builds (named so
proofs can speak about it; `initRecord_eq` below ties it to the operation). -/
def freshRecord (host : String) (port : Int) : WorkloadClusterListener :=
  { host := host
    port := port
    apiServers := []
    etcdMembers := []
    apiServerCaCertificate := none
    apiServerCaKey := none
    apiServerServingCertificate := none
    adminCertificate := none
    adminKey := none
    etcdServingCertificates := []
    listener := none }

/-- The ports handed back by a sequence of `InitWorkloadClusterListener`
calls: one entry per call, `some port` on success, `none` on failure. -/
def runInitPorts (m : WorkloadClustersMux) : List String → List (Option Int)
  | [] => []
  | n :: rest =>
    match InitWorkloadClusterListener m n with
    | (Except.ok w, m1) => some w.port :: runInitPorts m1 rest
    | (Except.error _, m1) => none :: runInitPorts m1 rest

/-- Closed form of the answers of the port allocator along a run of fresh
requests: starting at cursor `base` with inclusive upper bound `bound`, the
k-th request gets `base + k` while that is within bound and fails forever
after. -/
def portSchedule (base bound : Int) : Nat → List (Option Int)
  | 0 => []
  | len + 1 =>
    (if base ≤ bound then some base else none) :: portSchedule (base + 1) bound len

/-- The per-call environment assumption under which the socket-gating
invariant of C4 holds: for every `addAPIServer` operation the certificate
generations and socket bind succeed (`serveOk` may still fail). -/
def certAndBindOk : MuxOp → Bool
  | MuxOp.addAPIServer _ _ _ _ env => env.servingCertOk && env.adminCertOk && env.bindOk
  | _ => true

/-- The socket-gating invariant: the OS listener of every record is present iff
the record has at least one API-server identity. -/
def listenerGateInv (m : WorkloadClustersMux) : Prop :=
  ∀ n w, mapGet m.workloadClusterListeners n = some w →
    (w.listener ≠ none ↔ w.apiServers ≠ [])

/-- The lazily-minted certificate material of one record, once present, is
unchanged in a successor record.  The CA material is deliberately absent from
this list: `AddAPIServer` overwrites it on every call.  `adminKey` is tied to
`adminCertificate` because the code sets and guards the two together. -/
def recordCertsMono (w w1 : WorkloadClusterListener) : Prop :=
  (w.apiServerServingCertificate.isSome →
    w1.apiServerServingCertificate = w.apiServerServingCertificate) ∧
  (w.adminCertificate.isSome →
    w1.adminCertificate = w.adminCertificate ∧ w1.adminKey = w.adminKey) ∧
  (∀ p c, mapGet w.etcdServingCertificates p = some c →
    mapGet w1.etcdServingCertificates p = some c)

/-- Certificate stability between two registry states: every record survives
(under its name) with its set-once certificate material intact. -/
def certsPreservedFrom (s t : WorkloadClustersMux) : Prop :=
  ∀ n w, mapGet s.workloadClusterListeners n = some w →
    ∃ w1, mapGet t.workloadClusterListeners n = some w1 ∧ recordCertsMono w w1

/-! ## Sample states used by concrete witnesses and counterexamples -/

/-- A freshly initialized (RESERVED) record, as
`initWorkloadClusterListenerWithPortLocked` builds it for host `"h"` and port
20000. -/
def sampleRecord : WorkloadClusterListener :=
  { host := "h"
    port := 20000
    apiServers := []
    etcdMembers := []
    apiServerCaCertificate := none
    apiServerCaKey := none
    apiServerServingCertificate := none
    adminCertificate := none
    adminKey := none
    etcdServingCertificates := []
    listener := none }

/-- The registry after `InitWorkloadClusterListener "c"` on a fresh mux for
host `"h"`. -/
def sampleMux : WorkloadClustersMux :=
  { host := "h"
    minPort := 20000
    maxPort := 24000
    portIndex := 20001
    workloadClusterListeners := [("c", sampleRecord)]
    workloadClusterNameByHost := [("h:20000", "c")] }

/-- A record whose lazily-minted certificate material is already set (the
state after a successful first API-server join). -/
def certRecord : WorkloadClusterListener :=
  { host := "h"
    port := 20000
    apiServers := ["p"]
    etcdMembers := []
    apiServerCaCertificate := some 1
    apiServerCaKey := some 1
    apiServerServingCertificate := some ⟨1, 1, CertConfig.apiServer "h"⟩
    adminCertificate := some ⟨1, 1, CertConfig.adminClient⟩
    adminKey := some ⟨1, 1, CertConfig.adminClient⟩
    etcdServingCertificates := []
    listener := some "h:20000" }

/-- A registry holding `certRecord` under the name `"c"`. -/
def certMux : WorkloadClustersMux :=
  { host := "h"
    minPort := 20000
    maxPort := 24000
    portIndex := 20001
    workloadClusterListeners := [("c", certRecord)]
    workloadClusterNameByHost := [("h:20000", "c")] }

/-- A listed cluster bound to host `"h"` at port 20005, carrying the
resource-group annotation `"A"`. -/
def clusterA20005 : InMemoryCluster :=
  { clusterNamespace := "ns"
    name := "A"
    annotations := [(resourceGroupAnnotationName, "A")]
    host := "h"
    port := 20005 }

/-- A listed cluster bound to host `"h"` at port 20010, carrying the
resource-group annotation `"B"`. -/
def clusterB20010 : InMemoryCluster :=
  { clusterNamespace := "ns"
    name := "B"
    annotations := [(resourceGroupAnnotationName, "B")]
    host := "h"
    port := 20010 }

/-- A listed cluster bound to host `"h"` at port 24000 — the inclusive top of
the allocator range, itself assignable by `getFreePortLocked`. -/
def clusterT24000 : InMemoryCluster :=
  { clusterNamespace := "ns"
    name := "T"
    annotations := [(resourceGroupAnnotationName, "T")]
    host := "h"
    port := 24000 }

/-- A listed cluster whose control-plane endpoint names a different host. -/
def clusterBadHost : InMemoryCluster :=
  { clusterNamespace := "ns"
    name := "B"
    annotations := [(resourceGroupAnnotationName, "B")]
    host := "other"
    port := 20010 }

/-! ## Shared helper lemmas -/

theorem mapGet_mset_self {α : Type} (l : List (String × α)) (k : String) (v : α) :
    mapGet (mset l k v) k = some v := by
  induction l with
  | nil => simp [mset, mapGet]
  | cons hd tl ih =>
    obtain ⟨k1, v1⟩ := hd
    by_cases h : k1 = k
    · simp [mset, mapGet, h]
    · simp [mset, mapGet, h, ih]

theorem mapGet_mset_ne {α : Type} (l : List (String × α)) (k n : String) (v : α)
    (h : k ≠ n) : mapGet (mset l k v) n = mapGet l n := by
  induction l with
  | nil => simp [mset, mapGet, h]
  | cons hd tl ih =>
    obtain ⟨k1, v1⟩ := hd
    by_cases h1 : k1 = k
    · subst h1
      simp [mset, mapGet, h]
    · simp only [mset, if_neg h1]
      by_cases h2 : k1 = n
      · simp [mapGet, h2]
      · simp [mapGet, h2, ih]

theorem mem_setInsert_self (s : List String) (x : String) : x ∈ setInsert s x := by
  unfold setInsert
  split
  · assumption
  · simp

theorem setInsert_ne_nil (s : List String) (x : String) : setInsert s x ≠ [] := by
  intro h
  have := mem_setInsert_self s x
  rw [h] at this
  exact (List.not_mem_nil x) this

theorem initRecord_eq (m : WorkloadClustersMux) (n : String) (p : Int) :
    initWorkloadClusterListenerWithPortLocked m n p =
      (freshRecord m.host p,
        { m with
          workloadClusterListeners :=
            mset m.workloadClusterListeners n (freshRecord m.host p)
          workloadClusterNameByHost :=
            mset m.workloadClusterNameByHost (hostPortOf (freshRecord m.host p)) n }) :=
  rfl

theorem initListener_existing (m : WorkloadClustersMux) (c : String)
    (wcl : WorkloadClusterListener)
    (h : mapGet m.workloadClusterListeners c = some wcl) :
    InitWorkloadClusterListener m c = (Except.ok wcl, m) := by
  simp [InitWorkloadClusterListener, h]

/-! ## Claims -/

/-- C1 (counterexample): when shutting down the debug endpoint fails, the
shared multiplexed server is NOT asked to shut down — `Shutdown` returns the
debug error immediately, so the claim that both steps always run is false. -/
theorem claimC1_counterexample :
    (Shutdown (some "connection reset") none).muxAttempted = false ∧
    (Shutdown (some "connection reset") none).result =
      Except.error "failed to shutdown the debug server: connection reset" :=
  ⟨rfl, rfl⟩

/-- C1 (amended): `Shutdown` always attempts the debug-endpoint shutdown
first; the multiplexed server is asked to shut down exactly when the debug
step succeeded.  If the debug step fails its wrapped error is returned and the
mux server is never asked to stop; if the debug step succeeds, any mux error
is returned wrapped; if both succeed the call succeeds. -/
theorem claimC1 (debugErr muxErr : Option String) :
    (Shutdown debugErr muxErr).debugAttempted = true ∧
    ((Shutdown debugErr muxErr).muxAttempted = true ↔ debugErr = none) ∧
    (∀ e, debugErr = some e →
      (Shutdown debugErr muxErr).result =
        Except.error ("failed to shutdown the debug server: " ++ e)) ∧
    (debugErr = none → ∀ e, muxErr = some e →
      (Shutdown debugErr muxErr).result =
        Except.error ("failed to shutdown the mux server: " ++ e)) ∧
    (debugErr = none → muxErr = none →
      (Shutdown debugErr muxErr).result = Except.ok ()) := by
  cases debugErr <;> cases muxErr <;> simp [Shutdown]

/-- C1 witness: the amended theorem applied at concrete oracles. -/
theorem claimC1_witness :
    (Shutdown none (some "boom")).result =
      Except.error "failed to shutdown the mux server: boom" ∧
    (Shutdown (some "x") none).muxAttempted ≠ true := by
  refine ⟨(claimC1 none (some "boom")).2.2.2.1 rfl "boom" rfl, ?_⟩
  intro h
  have h2 := ((claimC1 (some "x") none).2.1).mp h
  exact Option.noConfusion h2

/-- C3 (counterexample): a handshake whose local address resolves to a record
with no etcd member matching the server name and an unset API-server serving
certificate yields `nil, nil` — a nil certificate WITHOUT an error — not the
error the claim requires. -/
theorem claimC3_counterexample :
    getCertificate sampleMux "h:20000" "some-pod" = Except.ok none := rfl

/-- C3 (amended): in the certificate resolver, when the local address resolves
to a cluster record, the requested server name is not a known etcd member of
that cluster, and the API-server serving certificate of the record is unset,
`getCertificate` returns a nil certificate with no error (it neither errors
nor panics). -/
theorem claimC3 (m : WorkloadClustersMux) (localAddr serverName wclName : String)
    (w : WorkloadClusterListener)
    (h1 : mapGet m.workloadClusterNameByHost localAddr = some wclName)
    (h2 : mapGet m.workloadClusterListeners wclName = some w)
    (h3 : serverName ∉ w.etcdMembers)
    (h4 : w.apiServerServingCertificate = none) :
    getCertificate m localAddr serverName = Except.ok none := by
  simp [getCertificate, h1, h2, h3, h4]

/-- C3 witness: the amended theorem applied at a concrete registry state. -/
theorem claimC3_witness :
    getCertificate sampleMux "h:20000" "etcd-x" = Except.ok none :=
  claimC3 sampleMux "h:20000" "etcd-x" "c" sampleRecord rfl rfl (by decide) rfl

/-- C6: `InitWorkloadClusterListener` is idempotent — on a registry that
already holds a record for the cluster name it returns that record (hence its
already-assigned port), leaves the whole registry (port cursor included)
unchanged, and a second consecutive call returns the same record again. -/
theorem claimC6 (m : WorkloadClustersMux) (c : String)
    (wcl : WorkloadClusterListener)
    (h : mapGet m.workloadClusterListeners c = some wcl) :
    InitWorkloadClusterListener m c = (Except.ok wcl, m) ∧
    (InitWorkloadClusterListener (InitWorkloadClusterListener m c).2 c).1 =
      Except.ok wcl := by
  have h1 := initListener_existing m c wcl h
  refine ⟨h1, ?_⟩
  rw [h1]
  exact congrArg Prod.fst h1

/-- C6 witness: idempotence at a concrete one-record registry. -/
theorem claimC6_witness :
    InitWorkloadClusterListener sampleMux "c" = (Except.ok sampleRecord, sampleMux) :=
  (claimC6 sampleMux "c" sampleRecord rfl).1

/-- C8: the protocol demultiplexer routes a request to the etcd-shaped handler
iff its major HTTP protocol version is 2 and its content-type header begins
with `application/grpc`; every other request goes to the API-server-shaped
handler. -/
theorem claimC8 (protoMajor : Nat) (contentType : String) :
    (routeRequest protoMajor contentType = HandlerKind.etcd ↔
      (protoMajor = 2 ∧ String.isPrefixOf "application/grpc" contentType = true)) ∧
    (routeRequest protoMajor contentType = HandlerKind.api ↔
      ¬(protoMajor = 2 ∧ String.isPrefixOf "application/grpc" contentType = true)) := by
  by_cases h1 : protoMajor = 2 <;>
    by_cases h2 : String.isPrefixOf "application/grpc" contentType <;>
      simp [routeRequest, h1, h2]

theorem initListener_fresh_ok (m : WorkloadClustersMux) (n : String)
    (hn : mapGet m.workloadClusterListeners n = none)
    (hb : m.portIndex ≤ m.maxPort) :
    InitWorkloadClusterListener m n =
      (Except.ok (freshRecord m.host m.portIndex),
        { m with
          portIndex := m.portIndex + 1
          workloadClusterListeners :=
            mset m.workloadClusterListeners n (freshRecord m.host m.portIndex)
          workloadClusterNameByHost :=
            mset m.workloadClusterNameByHost
              (hostPortOf (freshRecord m.host m.portIndex)) n }) := by
  unfold InitWorkloadClusterListener
  rw [hn]
  unfold getFreePortLocked
  rw [if_neg (not_lt.mpr hb)]
  rfl

theorem initListener_fresh_exhausted (m : WorkloadClustersMux) (n : String)
    (hn : mapGet m.workloadClusterListeners n = none)
    (hb : m.maxPort < m.portIndex) :
    InitWorkloadClusterListener m n =
      (Except.error ("no more free ports in the " ++ toString m.minPort ++ "-" ++
        toString m.maxPort ++ " range"), m) := by
  unfold InitWorkloadClusterListener
  rw [hn]
  unfold getFreePortLocked
  rw [if_pos hb]

theorem portSchedule_exhausted (len : Nat) : ∀ base bound : Int, bound < base →
    portSchedule base bound len = List.replicate len none := by
  induction len with
  | zero => intro base bound _; rfl
  | succ k ih =>
    intro base bound h
    rw [portSchedule, if_neg (not_le.mpr h), List.replicate_succ,
      ih (base + 1) bound (by omega)]

theorem portSchedule_mem_ge (len : Nat) : ∀ (base bound x : Int),
    x ∈ (portSchedule base bound len).filterMap id → base ≤ x := by
  induction len with
  | zero =>
    intro base bound x h
    simp [portSchedule] at h
  | succ k ih =>
    intro base bound x h
    rw [portSchedule] at h
    by_cases hb : base ≤ bound
    · rw [if_pos hb] at h
      simp only [List.filterMap_cons, id] at h
      rcases List.mem_cons.mp h with h1 | h1
      · omega
      · have := ih (base + 1) bound x h1
        omega
    · rw [if_neg hb] at h
      simp only [List.filterMap_cons, id] at h
      have := ih (base + 1) bound x h
      omega

theorem portSchedule_pairwise (len : Nat) : ∀ base bound : Int,
    List.Pairwise (· < ·) ((portSchedule base bound len).filterMap id) := by
  induction len with
  | zero =>
    intro base bound
    simp [portSchedule]
  | succ k ih =>
    intro base bound
    rw [portSchedule]
    by_cases hb : base ≤ bound
    · rw [if_pos hb]
      simp only [List.filterMap_cons, id]
      rw [List.pairwise_cons]
      refine ⟨?_, ih (base + 1) bound⟩
      intro x hx
      have := portSchedule_mem_ge k (base + 1) bound x hx
      omega
    · rw [if_neg hb]
      simp only [List.filterMap_cons, id]
      exact ih (base + 1) bound

theorem portSchedule_getD (len : Nat) : ∀ (base bound : Int) (i : Nat), i < len →
    (portSchedule base bound len).getD i (some 0) =
      if base + i ≤ bound then some (base + i) else none := by
  induction len with
  | zero =>
    intro base bound i h
    omega
  | succ k ih =>
    intro base bound i h
    cases i with
    | zero =>
      simp [portSchedule, List.getD_cons_zero]
    | succ j =>
      rw [portSchedule]
      simp only [List.getD_cons_succ]
      rw [ih (base + 1) bound j (by omega)]
      have h1 : ((j + 1 : Nat) : Int) = (j : Int) + 1 := by push_cast; ring
      rw [h1]
      have h2 : base + 1 + (j : Int) = base + ((j : Int) + 1) := by ring
      rw [h2]

theorem runInitPorts_fresh (names : List String) :
    ∀ m : WorkloadClustersMux, names.Nodup →
      (∀ n ∈ names, mapGet m.workloadClusterListeners n = none) →
      runInitPorts m names = portSchedule m.portIndex m.maxPort names.length := by
  induction names with
  | nil =>
    intro m _ _
    rfl
  | cons n rest ih =>
    intro m hnodup hfresh
    have hn := hfresh n (List.mem_cons_self n rest)
    have hnotmem : n ∉ rest := (List.nodup_cons.mp hnodup).1
    have hrestnodup : rest.Nodup := (List.nodup_cons.mp hnodup).2
    by_cases hb : m.portIndex ≤ m.maxPort
    · rw [runInitPorts, initListener_fresh_ok m n hn hb]
      show some (freshRecord m.host m.portIndex).port ::
          runInitPorts
            { m with
              portIndex := m.portIndex + 1
              workloadClusterListeners :=
                mset m.workloadClusterListeners n (freshRecord m.host m.portIndex)
              workloadClusterNameByHost :=
                mset m.workloadClusterNameByHost
                  (hostPortOf (freshRecord m.host m.portIndex)) n } rest =
        portSchedule m.portIndex m.maxPort (rest.length + 1)
      have hrestfresh : ∀ x ∈ rest,
          mapGet (mset m.workloadClusterListeners n
            (freshRecord m.host m.portIndex)) x = none := by
        intro x hx
        have hne : n ≠ x := fun he => hnotmem (he ▸ hx)
        rw [mapGet_mset_ne _ _ _ _ hne]
        exact hfresh x (List.mem_cons_of_mem n hx)
      rw [portSchedule, if_pos hb]
      congr 1
      exact ih _ hrestnodup hrestfresh
    · rw [runInitPorts, initListener_fresh_exhausted m n hn (not_le.mp hb)]
      show none :: runInitPorts m rest =
        portSchedule m.portIndex m.maxPort (rest.length + 1)
      have hrestfresh : ∀ x ∈ rest, mapGet m.workloadClusterListeners x = none :=
        fun x hx => hfresh x (List.mem_cons_of_mem n hx)
      rw [ih m hrestnodup hrestfresh]
      rw [portSchedule, if_neg hb]
      rw [portSchedule_exhausted _ _ _ (by omega), portSchedule_exhausted _ _ _ (by omega)]

/-- C5: starting from a fresh mux, a sequence of `InitWorkloadClusterListener`
calls with pairwise-distinct cluster names is answered exactly by the port
schedule 20000, 20001, ... (each successful call returns the cursor and
advances it by one, and calls fail exactly once the cursor passed 24000); the
assigned ports are pairwise distinct and strictly increasing in call order;
and failure is permanent — once one call fails, every later call fails. -/
theorem claimC5 (host : String) (names : List String) (hnodup : names.Nodup) :
    runInitPorts (newWorkloadClustersMux host) names =
        portSchedule 20000 24000 names.length ∧
    List.Pairwise (· < ·)
      ((runInitPorts (newWorkloadClustersMux host) names).filterMap id) ∧
    (∀ i j : Nat, i ≤ j → j < names.length →
      (runInitPorts (newWorkloadClustersMux host) names).getD i (some 0) = none →
      (runInitPorts (newWorkloadClustersMux host) names).getD j (some 0) = none) := by
  have hchar : runInitPorts (newWorkloadClustersMux host) names =
      portSchedule 20000 24000 names.length :=
    runInitPorts_fresh names (newWorkloadClustersMux host) hnodup (fun n _ => rfl)
  rw [hchar]
  refine ⟨rfl, portSchedule_pairwise names.length 20000 24000, ?_⟩
  intro i j hij hj hnone
  rw [portSchedule_getD names.length 20000 24000 i (by omega)] at hnone
  rw [portSchedule_getD names.length 20000 24000 j hj]
  by_cases hc : (20000 : Int) + i ≤ 24000
  · rw [if_pos hc] at hnone
    exact absurd hnone (by simp)
  · rw [if_neg ?_]
    have hcast : (i : Int) ≤ (j : Int) := by exact_mod_cast hij
    omega

/-- C5 witness: the first two fresh names get ports 20000 and 20001. -/
theorem claimC5_witness :
    runInitPorts (newWorkloadClustersMux "h") ["wkl-cluster-1", "wkl-cluster-2"] =
      [some 20000, some 20001] := by
  have h := (claimC5 "h" ["wkl-cluster-1", "wkl-cluster-2"] (by decide)).1
  rw [h]
  rfl

theorem hotRestartLoop_err_state (cs : List InMemoryCluster) :
    ∀ (ports : List Int) (maxSeen : Int) (m : WorkloadClustersMux),
      (hotRestartLoop ports maxSeen m cs).1.isOk = false →
        (hotRestartLoop ports maxSeen m cs).2.portIndex = m.portIndex ∧
        (hotRestartLoop ports maxSeen m cs).2.minPort = m.minPort ∧
        (hotRestartLoop ports maxSeen m cs).2.maxPort = m.maxPort ∧
        (hotRestartLoop ports maxSeen m cs).2.host = m.host := by
  induction cs with
  | nil =>
    intro ports maxSeen m h
    exact Bool.noConfusion h
  | cons c rest ih =>
    intro ports maxSeen m h
    rw [hotRestartLoop] at h ⊢
    by_cases h1 : c.host = ""
    · rw [if_pos h1] at h ⊢
      exact ih ports maxSeen m h
    · rw [if_neg h1] at h ⊢
      by_cases h2 : c.host ≠ m.host
      · rw [if_pos h2] at h ⊢
        exact ⟨rfl, rfl, rfl, rfl⟩
      · rw [if_neg h2] at h ⊢
        by_cases h3 : c.port ∈ ports
        · rw [if_pos h3] at h ⊢
          exact ⟨rfl, rfl, rfl, rfl⟩
        · rw [if_neg h3] at h ⊢
          cases hann : mapGet c.annotations resourceGroupAnnotationName with
          | none =>
            exact ⟨rfl, rfl, rfl, rfl⟩
          | some rg =>
            rw [hann] at h
            exact ih ports (if maxSeen < c.port then c.port else maxSeen)
              ((initWorkloadClusterListenerWithPortLocked m rg c.port).2) h

/-- C2 (counterexample): `HotRestart` on a fresh registry with a list whose
first cluster is valid and whose second names a different host returns an
error yet leaves the record of the first cluster (and reverse-index entry) behind
— a partial mutation. -/
theorem claimC2_counterexample :
    (HotRestart (newWorkloadClustersMux "h") [clusterA20005, clusterBadHost]).1.isOk
        = false ∧
    (HotRestart (newWorkloadClustersMux "h") [clusterA20005, clusterBadHost]).2
        ≠ newWorkloadClustersMux "h" ∧
    mapGet (HotRestart (newWorkloadClustersMux "h")
        [clusterA20005, clusterBadHost]).2.workloadClusterListeners "A" =
      some (freshRecord "h" 20005) := by
  refine ⟨rfl, ?_, rfl⟩
  intro h
  have h2 : mapGet (HotRestart (newWorkloadClustersMux "h")
      [clusterA20005, clusterBadHost]).2.workloadClusterListeners "A" =
      some (freshRecord "h" 20005) := rfl
  rw [h] at h2
  exact absurd h2 (by decide)

/-- C2 (amended): when `HotRestart` fails, the port cursor (and the host and
port range) is unchanged, and when it fails because the registry already holds
a record the whole registry is unchanged; but a failure on a later listed
cluster leaves the records created for earlier listed clusters in place. -/
theorem claimC2 (m : WorkloadClustersMux) (cs : List InMemoryCluster) :
    ((HotRestart m cs).1.isOk = false →
      (HotRestart m cs).2.portIndex = m.portIndex ∧
      (HotRestart m cs).2.minPort = m.minPort ∧
      (HotRestart m cs).2.maxPort = m.maxPort ∧
      (HotRestart m cs).2.host = m.host) ∧
    (m.workloadClusterListeners ≠ [] → (HotRestart m cs).2 = m) := by
  constructor
  · intro h
    rw [HotRestart] at h ⊢
    by_cases h0 : cs.length = 0
    · rw [if_pos h0] at h
      exact Bool.noConfusion h
    · rw [if_neg h0] at h ⊢
      by_cases h1 : 0 < m.workloadClusterListeners.length
      · rw [if_pos h1] at h ⊢
        exact ⟨rfl, rfl, rfl, rfl⟩
      · rw [if_neg h1] at h ⊢
        exact hotRestartLoop_err_state cs [] (m.minPort - 1) m h
  · intro hne
    have h1 : 0 < m.workloadClusterListeners.length := List.length_pos.mpr hne
    rw [HotRestart]
    by_cases h0 : cs.length = 0
    · rw [if_pos h0]
    · rw [if_neg h0, if_pos h1]

/-- C2 witness: the amended theorem applied at a registry that already has a
record — the rejected call leaves it untouched. -/
theorem claimC2_witness :
    (HotRestart sampleMux [clusterA20005]).2 = sampleMux :=
  (claimC2 sampleMux [clusterA20005]).2 (by decide)

theorem recordCertsMono_refl (w : WorkloadClusterListener) : recordCertsMono w w :=
  ⟨fun _ => rfl, fun _ => ⟨rfl, rfl⟩, fun _ _ hc => hc⟩

theorem certsPreservedFrom_refl (m : WorkloadClustersMux) : certsPreservedFrom m m :=
  fun _ w h => ⟨w, h, recordCertsMono_refl w⟩

theorem certsPreservedFrom_trans {a b c : WorkloadClustersMux}
    (h1 : certsPreservedFrom a b) (h2 : certsPreservedFrom b c) :
    certsPreservedFrom a c := by
  intro n w h
  obtain ⟨w1, hb, p1, p2, p3⟩ := h1 n w h
  obtain ⟨w2, hc, q1, q2, q3⟩ := h2 n w1 hb
  refine ⟨w2, hc, ?_, ?_, ?_⟩
  · intro hs
    have hs1 : w1.apiServerServingCertificate.isSome = true := by
      rw [p1 hs]
      exact hs
    rw [q1 hs1, p1 hs]
  · intro hs
    obtain ⟨pa, pk⟩ := p2 hs
    have hs1 : w1.adminCertificate.isSome = true := by
      rw [pa]
      exact hs
    obtain ⟨qa, qk⟩ := q2 hs1
    exact ⟨qa.trans pa, qk.trans pk⟩
  · intro p c hpc
    exact q3 p c (p3 p c hpc)

theorem certsPreservedFrom_writeListener (m : WorkloadClustersMux) (k : String)
    (w0 w1 : WorkloadClusterListener)
    (hk : mapGet m.workloadClusterListeners k = some w0)
    (hmono : recordCertsMono w0 w1) :
    certsPreservedFrom m (writeListener m k w1) := by
  intro n w h
  by_cases hnk : n = k
  · subst hnk
    rw [hk] at h
    injection h with hw
    subst hw
    exact ⟨w1, mapGet_mset_self _ _ _, hmono⟩
  · refine ⟨w, ?_, recordCertsMono_refl w⟩
    show mapGet (mset m.workloadClusterListeners k w1) n = some w
    rw [mapGet_mset_ne _ _ _ _ (fun he => hnk he.symm)]
    exact h

theorem certsPreservedFrom_of_mset_new (m t : WorkloadClustersMux) (k : String)
    (v : WorkloadClusterListener)
    (hk : mapGet m.workloadClusterListeners k = none)
    (ht : t.workloadClusterListeners = mset m.workloadClusterListeners k v) :
    certsPreservedFrom m t := by
  intro n w h
  have hnk : k ≠ n := by
    intro he
    rw [he] at hk
    rw [hk] at h
    exact Option.noConfusion h
  refine ⟨w, ?_, recordCertsMono_refl w⟩
  rw [ht, mapGet_mset_ne _ _ _ _ hnk]
  exact h

theorem addAPIServer_shape (m : WorkloadClustersMux) (k p : String) (ca key : Nat)
    (env : APIServerEnv) :
    (AddAPIServer m k p ca key env).2 = m ∨
    ∃ w0 w1, mapGet m.workloadClusterListeners k = some w0 ∧
      (AddAPIServer m k p ca key env).2 = writeListener m k w1 ∧
      recordCertsMono w0 w1 := by
  cases hk : mapGet m.workloadClusterListeners k with
  | none =>
    left
    show (AddAPIServer m k p ca key env).2 = m
    unfold AddAPIServer
    rw [hk]
  | some w0 =>
    right
    obtain ⟨e1, e2, e3, e4⟩ := env
    obtain ⟨f1, f2, f3, f4, f5, f6, f7, f8, f9, f10, f11⟩ := w0
    show ∃ w0 w1, _ ∧ (AddAPIServer m k p ca key ⟨e1, e2, e3, e4⟩).2 = _ ∧ _
    unfold AddAPIServer
    rw [hk]
    cases f7 <;> cases f8 <;> cases f11 <;> cases e1 <;> cases e2 <;> cases e3 <;>
      cases e4 <;>
      exact ⟨_, _, rfl, rfl, by intro h1; first | rfl | simp at h1,
        by intro h1; first | exact ⟨rfl, rfl⟩ | simp at h1,
        fun q c hc => hc⟩

theorem addEtcdMember_shape (m : WorkloadClustersMux) (k p : String) (ca key : Nat)
    (certOk : Bool) :
    (AddEtcdMember m k p ca key certOk).2 = m ∨
    ∃ w0 w1, mapGet m.workloadClusterListeners k = some w0 ∧
      (AddEtcdMember m k p ca key certOk).2 = writeListener m k w1 ∧
      recordCertsMono w0 w1 ∧
      w1.apiServers = w0.apiServers ∧ w1.listener = w0.listener := by
  cases hk : mapGet m.workloadClusterListeners k with
  | none =>
    left
    show (AddEtcdMember m k p ca key certOk).2 = m
    unfold AddEtcdMember
    rw [hk]
  | some w0 =>
    right
    have heq : AddEtcdMember m k p ca key certOk =
        (if (mapGet w0.etcdServingCertificates p).isSome = true then
          (Except.ok (), writeListener m k
            { w0 with etcdMembers := setInsert w0.etcdMembers p })
        else
          match newCertAndKey certOk ca key (CertConfig.etcdServer p w0.host) with
          | Except.error e =>
            (Except.error
              ("failed to create serving certificate for etcd member " ++ p ++ ": " ++ e),
              writeListener m k { w0 with etcdMembers := setInsert w0.etcdMembers p })
          | Except.ok c =>
            (Except.ok (), writeListener m k
              { w0 with
                etcdMembers := setInsert w0.etcdMembers p
                etcdServingCertificates := mset w0.etcdServingCertificates p c })) := by
      unfold AddEtcdMember
      rw [hk]
    rw [heq]
    by_cases hc : (mapGet w0.etcdServingCertificates p).isSome = true
    · rw [if_pos hc]
      exact ⟨w0, _, rfl, rfl, ⟨fun _ => rfl, fun _ => ⟨rfl, rfl⟩, fun q c h => h⟩,
        rfl, rfl⟩
    · rw [if_neg hc]
      have hnone : mapGet w0.etcdServingCertificates p = none := by
        cases hm : mapGet w0.etcdServingCertificates p with
        | none => rfl
        | some c =>
          rw [hm] at hc
          exact absurd rfl hc
      cases certOk with
      | false =>
        exact ⟨w0, _, rfl, rfl, ⟨fun _ => rfl, fun _ => ⟨rfl, rfl⟩, fun q c h => h⟩,
          rfl, rfl⟩
      | true =>
        refine ⟨w0, _, rfl, rfl, ⟨fun _ => rfl, fun _ => ⟨rfl, rfl⟩, ?_⟩, rfl, rfl⟩
        intro q c h
        show mapGet (mset w0.etcdServingCertificates p _) q = some c
        have hqp : p ≠ q := by
          intro he
          rw [← he] at h
          rw [hnone] at h
          exact Option.noConfusion h
        rw [mapGet_mset_ne _ _ _ _ hqp]
        exact h

theorem applyOp_certsPreserved (m : WorkloadClustersMux) (op : MuxOp) :
    certsPreservedFrom m (applyOp m op) := by
  cases op with
  | initListener k =>
    show certsPreservedFrom m (InitWorkloadClusterListener m k).2
    cases hk : mapGet m.workloadClusterListeners k with
    | some wk =>
      rw [initListener_existing m k wk hk]
      exact certsPreservedFrom_refl m
    | none =>
      by_cases hb : m.portIndex ≤ m.maxPort
      · rw [initListener_fresh_ok m k hk hb]
        exact certsPreservedFrom_of_mset_new m _ k
          (freshRecord m.host m.portIndex) hk rfl
      · rw [initListener_fresh_exhausted m k hk (not_le.mp hb)]
        exact certsPreservedFrom_refl m
  | addAPIServer k p ca key env =>
    show certsPreservedFrom m (AddAPIServer m k p ca key env).2
    rcases addAPIServer_shape m k p ca key env with heq | ⟨w0, w1, hk, heq, hmono⟩
    · rw [heq]
      exact certsPreservedFrom_refl m
    · rw [heq]
      exact certsPreservedFrom_writeListener m k w0 w1 hk hmono
  | addEtcdMember k p ca key certOk =>
    show certsPreservedFrom m (AddEtcdMember m k p ca key certOk).2
    rcases addEtcdMember_shape m k p ca key certOk with
      heq | ⟨w0, w1, hk, heq, hmono, _, _⟩
    · rw [heq]
      exact certsPreservedFrom_refl m
    · rw [heq]
      exact certsPreservedFrom_writeListener m k w0 w1 hk hmono
  | hotRestart cs =>
    show certsPreservedFrom m (HotRestart m cs).2
    unfold HotRestart
    by_cases h0 : cs.length = 0
    · rw [if_pos h0]
      exact certsPreservedFrom_refl m
    · rw [if_neg h0]
      by_cases h1 : 0 < m.workloadClusterListeners.length
      · rw [if_pos h1]
        exact certsPreservedFrom_refl m
      · rw [if_neg h1]
        have hemp : m.workloadClusterListeners = [] :=
          List.length_eq_zero.mp (by omega)
        intro n w h
        rw [hemp] at h
        exact Option.noConfusion h

theorem runOps_certsPreserved (ops : List MuxOp) :
    ∀ m : WorkloadClustersMux, certsPreservedFrom m (runOps m ops) := by
  induction ops with
  | nil =>
    intro m
    exact certsPreservedFrom_refl m
  | cons op rest ih =>
    intro m
    exact certsPreservedFrom_trans (applyOp_certsPreserved m op) (ih (applyOp m op))

/-- C7 (counterexample): the CA certificate field is NOT immutable — a second
`AddAPIServer` call with different CA material overwrites the stored
`apiServerCaCertificate` (the assignment at part_000:283 is unconditional),
so the claim that every once-set certificate field never changes is false. -/
theorem claimC7_counterexample :
    (mapGet (runOps (newWorkloadClustersMux "h")
        [MuxOp.initListener "c",
         MuxOp.addAPIServer "c" "p" 1 1 ⟨true, true, true, true⟩]).workloadClusterListeners
        "c").map (fun w => w.apiServerCaCertificate) = some (some 1) ∧
    (mapGet (runOps (newWorkloadClustersMux "h")
        [MuxOp.initListener "c",
         MuxOp.addAPIServer "c" "p" 1 1 ⟨true, true, true, true⟩,
         MuxOp.addAPIServer "c" "q" 2 2 ⟨true, true, true, true⟩]).workloadClusterListeners
        "c").map (fun w => w.apiServerCaCertificate) = some (some 2) := by
  exact ⟨rfl, rfl⟩

/-- C7 (amended): the lazily-minted certificate material of a Listener Record
is immutable once set — for every starting registry, every record it holds,
and every sequence of operations, the record survives and its
`apiServerServingCertificate`, its `adminCertificate`/`adminKey` pair, and
every existing entry of `etcdServingCertificates`, once non-nil, keep their
values; the CA certificate and key, by contrast, are overwritten by each
`AddAPIServer` call (see the counterexample). -/
theorem claimC7 (m : WorkloadClustersMux) (ops : List MuxOp) (n : String)
    (w : WorkloadClusterListener)
    (h : mapGet m.workloadClusterListeners n = some w) :
    ∃ w1, mapGet (runOps m ops).workloadClusterListeners n = some w1 ∧
      (w.apiServerServingCertificate.isSome →
        w1.apiServerServingCertificate = w.apiServerServingCertificate) ∧
      (w.adminCertificate.isSome →
        w1.adminCertificate = w.adminCertificate ∧ w1.adminKey = w.adminKey) ∧
      (∀ p c, mapGet w.etcdServingCertificates p = some c →
        mapGet w1.etcdServingCertificates p = some c) :=
  runOps_certsPreserved ops m n w h

/-- C7 witness: a record with all lazy certificate material set, subjected to
a further API-server join with different CA material. -/
theorem claimC7_witness :
    ∃ w1, mapGet (runOps certMux
        [MuxOp.addAPIServer "c" "q" 2 2 ⟨true, true, true, true⟩]).workloadClusterListeners
        "c" = some w1 ∧
      (certRecord.apiServerServingCertificate.isSome →
        w1.apiServerServingCertificate = certRecord.apiServerServingCertificate) ∧
      (certRecord.adminCertificate.isSome →
        w1.adminCertificate = certRecord.adminCertificate ∧
        w1.adminKey = certRecord.adminKey) ∧
      (∀ p c, mapGet certRecord.etcdServingCertificates p = some c →
        mapGet w1.etcdServingCertificates p = some c) :=
  claimC7 certMux [MuxOp.addAPIServer "c" "q" 2 2 ⟨true, true, true, true⟩]
    "c" certRecord rfl

theorem listenerGateInv_writeListener (m : WorkloadClustersMux) (k : String)
    (w1 : WorkloadClusterListener) (hinv : listenerGateInv m)
    (hw : w1.listener ≠ none ↔ w1.apiServers ≠ []) :
    listenerGateInv (writeListener m k w1) := by
  intro n w h
  have h2 : mapGet (mset m.workloadClusterListeners k w1) n = some w := h
  by_cases hnk : n = k
  · subst hnk
    rw [mapGet_mset_self] at h2
    injection h2 with hw2
    subst hw2
    exact hw
  · rw [mapGet_mset_ne _ _ _ _ (fun he => hnk he.symm)] at h2
    exact hinv n w h2

theorem listenerGateInv_msetFresh (m t : WorkloadClustersMux) (k hostv : String)
    (portv : Int) (hinv : listenerGateInv m)
    (ht : t.workloadClusterListeners =
      mset m.workloadClusterListeners k (freshRecord hostv portv)) :
    listenerGateInv t := by
  intro n w h
  rw [ht] at h
  by_cases hnk : n = k
  · subst hnk
    rw [mapGet_mset_self] at h
    injection h with hw
    subst hw
    simp [freshRecord]
  · rw [mapGet_mset_ne _ _ _ _ (fun he => hnk he.symm)] at h
    exact hinv n w h

theorem addAPIServer_gate_shape (m : WorkloadClustersMux) (k p : String)
    (ca key : Nat) (env : APIServerEnv)
    (henv : env.servingCertOk = true ∧ env.adminCertOk = true ∧ env.bindOk = true) :
    (AddAPIServer m k p ca key env).2 = m ∨
    ∃ w0 w1, mapGet m.workloadClusterListeners k = some w0 ∧
      (AddAPIServer m k p ca key env).2 = writeListener m k w1 ∧
      w1.apiServers = setInsert w0.apiServers p ∧
      w1.listener ≠ none := by
  cases hk : mapGet m.workloadClusterListeners k with
  | none =>
    left
    show (AddAPIServer m k p ca key env).2 = m
    unfold AddAPIServer
    rw [hk]
  | some w0 =>
    right
    obtain ⟨e1, e2, e3, e4⟩ := env
    obtain ⟨he1, he2, he3⟩ := henv
    subst he1
    subst he2
    subst he3
    obtain ⟨f1, f2, f3, f4, f5, f6, f7, f8, f9, f10, f11⟩ := w0
    unfold AddAPIServer
    rw [hk]
    cases f7 <;> cases f8 <;> cases f11 <;> cases e4 <;>
      exact ⟨_, _, rfl, rfl, rfl, by simp⟩

theorem hotRestartLoop_gateInv (cs : List InMemoryCluster) :
    ∀ (ports : List Int) (maxSeen : Int) (m : WorkloadClustersMux),
      listenerGateInv m → listenerGateInv (hotRestartLoop ports maxSeen m cs).2 := by
  induction cs with
  | nil =>
    intro ports maxSeen m hinv
    exact hinv
  | cons c rest ih =>
    intro ports maxSeen m hinv
    rw [hotRestartLoop]
    by_cases h1 : c.host = ""
    · rw [if_pos h1]
      exact ih ports maxSeen m hinv
    · rw [if_neg h1]
      by_cases h2 : c.host ≠ m.host
      · rw [if_pos h2]
        exact hinv
      · rw [if_neg h2]
        by_cases h3 : c.port ∈ ports
        · rw [if_pos h3]
          exact hinv
        · rw [if_neg h3]
          cases hann : mapGet c.annotations resourceGroupAnnotationName with
          | none => exact hinv
          | some rg =>
            exact ih ports (if maxSeen < c.port then c.port else maxSeen)
              ((initWorkloadClusterListenerWithPortLocked m rg c.port).2)
              (listenerGateInv_msetFresh m _ rg m.host c.port hinv rfl)

theorem applyOp_gateInv (m : WorkloadClustersMux) (op : MuxOp)
    (hinv : listenerGateInv m) (henv : certAndBindOk op = true) :
    listenerGateInv (applyOp m op) := by
  cases op with
  | initListener k =>
    show listenerGateInv (InitWorkloadClusterListener m k).2
    cases hk : mapGet m.workloadClusterListeners k with
    | some wk =>
      rw [initListener_existing m k wk hk]
      exact hinv
    | none =>
      by_cases hb : m.portIndex ≤ m.maxPort
      · rw [initListener_fresh_ok m k hk hb]
        exact listenerGateInv_msetFresh m _ k m.host m.portIndex hinv rfl
      · rw [initListener_fresh_exhausted m k hk (not_le.mp hb)]
        exact hinv
  | addAPIServer k p ca key env =>
    have henv3 : env.servingCertOk = true ∧ env.adminCertOk = true ∧
        env.bindOk = true := by
      simp only [certAndBindOk, Bool.and_eq_true] at henv
      exact ⟨henv.1.1, henv.1.2, henv.2⟩
    show listenerGateInv (AddAPIServer m k p ca key env).2
    rcases addAPIServer_gate_shape m k p ca key env henv3 with
      heq | ⟨w0, w1, hk, heq, hapi, hlst⟩
    · rw [heq]
      exact hinv
    · rw [heq]
      refine listenerGateInv_writeListener m k w1 hinv ⟨fun _ => ?_, fun _ => hlst⟩
      rw [hapi]
      exact setInsert_ne_nil _ _
  | addEtcdMember k p ca key certOk =>
    show listenerGateInv (AddEtcdMember m k p ca key certOk).2
    rcases addEtcdMember_shape m k p ca key certOk with
      heq | ⟨w0, w1, hk, heq, _, hapi, hlst⟩
    · rw [heq]
      exact hinv
    · rw [heq]
      refine listenerGateInv_writeListener m k w1 hinv ?_
      rw [hapi, hlst]
      exact hinv k w0 hk
  | hotRestart cs =>
    show listenerGateInv (HotRestart m cs).2
    unfold HotRestart
    by_cases h0 : cs.length = 0
    · rw [if_pos h0]
      exact hinv
    · rw [if_neg h0]
      by_cases h1 : 0 < m.workloadClusterListeners.length
      · rw [if_pos h1]
        exact hinv
      · rw [if_neg h1]
        exact hotRestartLoop_gateInv cs [] (m.minPort - 1) m hinv

theorem runOps_gateInv (ops : List MuxOp) :
    ∀ m : WorkloadClustersMux, listenerGateInv m →
      (∀ op ∈ ops, certAndBindOk op = true) → listenerGateInv (runOps m ops) := by
  induction ops with
  | nil =>
    intro m hinv _
    exact hinv
  | cons op rest ih =>
    intro m hinv henv
    exact ih (applyOp m op)
      (applyOp_gateInv m op hinv (henv op (List.mem_cons_self op rest)))
      (fun o ho => henv o (List.mem_cons_of_mem op ho))

/-- C4 (counterexample): when the serving-certificate generation of an
`AddAPIServer` call fails, the identity has already been inserted but no socket is
bound, so a reachable record has a non-empty API-server set and a nil
osListener — the claimed iff fails on error-returning calls. -/
theorem claimC4_counterexample :
    mapGet (runOps (newWorkloadClustersMux "h")
        [MuxOp.initListener "c",
         MuxOp.addAPIServer "c" "p" 1 1 ⟨false, true, true, true⟩]).workloadClusterListeners
        "c" =
      some { freshRecord "h" 20000 with
              apiServers := ["p"]
              apiServerCaCertificate := some 1
              apiServerCaKey := some 1 } ∧
    ¬ (({ freshRecord "h" 20000 with
          apiServers := ["p"]
          apiServerCaCertificate := some 1
          apiServerCaKey := some 1 } : WorkloadClusterListener).listener ≠ none ↔
        ({ freshRecord "h" 20000 with
           apiServers := ["p"]
           apiServerCaCertificate := some 1
           apiServerCaKey := some 1 } : WorkloadClusterListener).apiServers ≠ []) := by
  constructor
  · rfl
  · decide

/-- C4 (amended): in every state reachable from a fresh mux by operations
whose `AddAPIServer` certificate generations and socket binds all succeed,
the OS listener of a record is non-nil iff its API-server identity set is
non-empty.  (Without that proviso the backward direction fails: a failed
`AddAPIServer` leaves the identity inserted with no socket, see the
counterexample.) -/
theorem claimC4 (host : String) (ops : List MuxOp)
    (henv : ∀ op ∈ ops, certAndBindOk op = true)
    (n : String) (w : WorkloadClusterListener)
    (h : mapGet (runOps (newWorkloadClustersMux host) ops).workloadClusterListeners n
      = some w) :
    w.listener ≠ none ↔ w.apiServers ≠ [] :=
  runOps_gateInv ops (newWorkloadClustersMux host)
    (fun _ _ hc => Option.noConfusion hc) henv n w h

/-- C4 witness: after a successful init + API-server join, the record has a
bound listener and a non-empty identity set. -/
theorem claimC4_witness :
    certRecord.listener ≠ none ↔ certRecord.apiServers ≠ [] :=
  claimC4 "h"
    [MuxOp.initListener "c", MuxOp.addAPIServer "c" "p" 1 1 ⟨true, true, true, true⟩]
    (by decide) "c" certRecord rfl

/-- C10: the reconciliation loop of `HotRestart` treats its input exactly as if
every cluster whose control-plane-endpoint host is the empty string had been
removed from the list: such entries create no record and no reverse-index
entry, are exempt from the host / duplicate-port / annotation checks, do not
contribute to the cursor advance, and never make the call fail. -/
theorem claimC10 : ∀ (cs : List InMemoryCluster) (ports : List Int)
    (maxSeen : Int) (m : WorkloadClustersMux),
    hotRestartLoop ports maxSeen m (cs.filter (fun c => !(c.host == ""))) =
      hotRestartLoop ports maxSeen m cs := by
  intro cs
  induction cs with
  | nil =>
    intro ports maxSeen m
    rfl
  | cons c rest ih =>
    intro ports maxSeen m
    by_cases h1 : c.host = ""
    · have hfil : (c :: rest).filter (fun c => !(c.host == "")) =
          rest.filter (fun c => !(c.host == "")) := by
        simp [List.filter_cons, h1]
      rw [hfil]
      conv_rhs => rw [hotRestartLoop]
      rw [if_pos h1]
      exact ih ports maxSeen m
    · have hfil : (c :: rest).filter (fun c => !(c.host == "")) =
          c :: rest.filter (fun c => !(c.host == "")) := by
        simp [List.filter_cons, h1]
      rw [hfil]
      simp only [hotRestartLoop]
      simp only [if_neg h1]
      by_cases h2 : c.host ≠ m.host
      · simp only [if_pos h2]
      · simp only [if_neg h2]
        by_cases h3 : c.port ∈ ports
        · simp only [if_pos h3]
        · simp only [if_neg h3]
          cases hann : mapGet c.annotations resourceGroupAnnotationName with
          | none => rfl
          | some rg =>
            exact ih ports (if maxSeen < c.port then c.port else maxSeen)
              ((initWorkloadClusterListenerWithPortLocked m rg c.port).2)

theorem if_lt_max (a b : Int) : (if a < b then b else a) = max a b := by
  by_cases h : a < b
  · rw [if_pos h, max_eq_right (le_of_lt h)]
  · rw [if_neg h, max_eq_left (not_lt.mp h)]

theorem foldl_max_le (l : List Int) : ∀ a B : Int, a ≤ B → (∀ x ∈ l, x ≤ B) →
    l.foldl max a ≤ B := by
  induction l with
  | nil =>
    intro a B ha _
    simpa using ha
  | cons x xs ih =>
    intro a B ha hx
    rw [List.foldl_cons]
    exact ih (max a x) B (max_le ha (hx x (List.mem_cons_self x xs)))
      (fun y hy => hx y (List.mem_cons_of_mem x hy))

theorem hotRestartLoop_success (cs : List InMemoryCluster) :
    ∀ (maxSeen : Int) (m : WorkloadClustersMux),
      (∀ c ∈ cs, c.host = m.host) → m.host ≠ "" →
      (∀ c ∈ cs, (resourceGroupOf c).isSome = true) →
      (cs.map resourceGroupOf).Nodup →
      ∃ s, hotRestartLoop [] maxSeen m cs = (Except.ok (), s) ∧
        s.host = m.host ∧ s.minPort = m.minPort ∧ s.maxPort = m.maxPort ∧
        s.portIndex = (cs.map (fun c => c.port)).foldl max maxSeen + 1 ∧
        (∀ c ∈ cs, ∀ g, resourceGroupOf c = some g →
          mapGet s.workloadClusterListeners g = some (freshRecord m.host c.port)) ∧
        (∀ n, (∀ c ∈ cs, resourceGroupOf c ≠ some n) →
          mapGet s.workloadClusterListeners n = mapGet m.workloadClusterListeners n) := by
  induction cs with
  | nil =>
    intro maxSeen m _ _ _ _
    exact ⟨{ m with portIndex := maxSeen + 1 }, rfl, rfl, rfl, rfl, rfl,
      fun c hc => absurd hc (List.not_mem_nil c), fun n _ => rfl⟩
  | cons c rest ih =>
    intro maxSeen m hhost hne hann hnodup
    have hch : c.host = m.host := hhost c (List.mem_cons_self c rest)
    have hcne : ¬ (c.host = "") := by
      rw [hch]
      exact hne
    obtain ⟨g, hg⟩ := Option.isSome_iff_exists.mp (hann c (List.mem_cons_self c rest))
    rw [List.map_cons, List.nodup_cons] at hnodup
    obtain ⟨hnotin, htailnodup⟩ := hnodup
    rw [hotRestartLoop, if_neg hcne, if_neg (show ¬ (c.host ≠ m.host) from fun hx => hx hch),
      if_neg (List.not_mem_nil c.port),
      show mapGet c.annotations resourceGroupAnnotationName = some g from hg]
    obtain ⟨s, heq, hsh, hsmin, hsmax, hspi, hsrec, hsunch⟩ :=
      ih (if maxSeen < c.port then c.port else maxSeen)
        ((initWorkloadClusterListenerWithPortLocked m g c.port).2)
        (fun c1 hc1 => hhost c1 (List.mem_cons_of_mem c hc1))
        hne
        (fun c1 hc1 => hann c1 (List.mem_cons_of_mem c hc1))
        htailnodup
    refine ⟨s, heq, hsh, hsmin, hsmax, ?_, ?_, ?_⟩
    · rw [List.map_cons, List.foldl_cons, ← if_lt_max]
      exact hspi
    · intro c1 hc1 g1 hg1
      rcases List.mem_cons.mp hc1 with hc1e | hc1r
      · rw [hc1e] at hg1 ⊢
        rw [hg] at hg1
        injection hg1 with hgg
        rw [← hgg]
        have hrestne : ∀ c2 ∈ rest, resourceGroupOf c2 ≠ some g := by
          intro c2 hc2 habs
          apply hnotin
          rw [hg, ← habs]
          exact List.mem_map_of_mem resourceGroupOf hc2
        rw [hsunch g hrestne]
        show mapGet (mset m.workloadClusterListeners g
          (freshRecord m.host c.port)) g = some (freshRecord m.host c.port)
        exact mapGet_mset_self _ _ _
      · exact hsrec c1 hc1r g1 hg1
    · intro n hn
      have hgn : g ≠ n := by
        intro he
        exact hn c (List.mem_cons_self c rest) (he ▸ hg)
      rw [hsunch n (fun c1 hc1 => hn c1 (List.mem_cons_of_mem c hc1))]
      show mapGet (mset m.workloadClusterListeners g (freshRecord m.host c.port)) n =
        mapGet m.workloadClusterListeners n
      exact mapGet_mset_ne _ _ _ _ hgn

/-- C9 (counterexample): the inclusive range top 24000 is itself assignable
by `getFreePortLocked` (which fails only once the cursor EXCEEDS 24000), so a
restore list claiming port 24000 is a legitimate input of previously-assigned
ports; `HotRestart` succeeds and advances the cursor to 24001, but the next
fresh `InitWorkloadClusterListener` then fails with port-range exhaustion
instead of returning one past the maximum observed port, refuting the claim
at that input. -/
theorem claimC9_counterexample :
    (HotRestart (newWorkloadClustersMux "h") [clusterT24000]).1 = Except.ok () ∧
    (HotRestart (newWorkloadClustersMux "h") [clusterT24000]).2.portIndex = 24001 ∧
    (InitWorkloadClusterListener
        (HotRestart (newWorkloadClustersMux "h") [clusterT24000]).2 "C").1 =
      Except.error "no more free ports in the 20000-24000 range" :=
  ⟨rfl, rfl, rfl⟩

/-- C9 (amended): a successful `HotRestart` on a fresh registry, fed clusters
bound to the configured (non-empty) host with pairwise-distinct resource
groups, restores a `RESERVED` record (no socket) for each cluster at its old
port under its resource-group name — a subsequent
`InitWorkloadClusterListener` for that name returns that record and changes
nothing — and sets the port cursor to one past the maximum observed port.
The next fresh `InitWorkloadClusterListener` returns exactly that cursor
value when it still lies within the 20000-24000 range; when the maximum
observed port was already the inclusive range top, the fresh call instead
fails with exhaustion (see the counterexample). -/
theorem claimC9 (host : String) (cs : List InMemoryCluster)
    (hne : cs ≠ [])
    (hhost : ∀ c ∈ cs, c.host = host)
    (hh : host ≠ "")
    (hann : ∀ c ∈ cs, (resourceGroupOf c).isSome = true)
    (hnodup : (cs.map resourceGroupOf).Nodup) :
    (HotRestart (newWorkloadClustersMux host) cs).1 = Except.ok () ∧
    (HotRestart (newWorkloadClustersMux host) cs).2.portIndex =
      (cs.map (fun c => c.port)).foldl max (20000 - 1) + 1 ∧
    (∀ c ∈ cs, ∀ g, resourceGroupOf c = some g →
      ∃ w, mapGet
          (HotRestart (newWorkloadClustersMux host) cs).2.workloadClusterListeners g
          = some w ∧
        w.port = c.port ∧ w.listener = none ∧
        InitWorkloadClusterListener (HotRestart (newWorkloadClustersMux host) cs).2 g
          = (Except.ok w, (HotRestart (newWorkloadClustersMux host) cs).2)) ∧
    (∀ n, mapGet
        (HotRestart (newWorkloadClustersMux host) cs).2.workloadClusterListeners n
        = none →
      ((cs.map (fun c => c.port)).foldl max (20000 - 1) + 1 ≤ 24000 →
        ∃ w, (InitWorkloadClusterListener
            (HotRestart (newWorkloadClustersMux host) cs).2 n).1 = Except.ok w ∧
          w.port = (cs.map (fun c => c.port)).foldl max (20000 - 1) + 1) ∧
      (24000 < (cs.map (fun c => c.port)).foldl max (20000 - 1) + 1 →
        ∃ e, (InitWorkloadClusterListener
            (HotRestart (newWorkloadClustersMux host) cs).2 n).1 =
          Except.error e)) := by
  have hlen : ¬ (cs.length = 0) := fun h0 => hne (List.length_eq_zero.mp h0)
  have hll : ¬ (0 < (newWorkloadClustersMux host).workloadClusterListeners.length) := by
    show ¬ (0 < ([] : List (String × WorkloadClusterListener)).length)
    simp
  have hexp : HotRestart (newWorkloadClustersMux host) cs =
      hotRestartLoop [] ((newWorkloadClustersMux host).minPort - 1)
        (newWorkloadClustersMux host) cs := by
    unfold HotRestart
    rw [if_neg hlen, if_neg hll]
  obtain ⟨s, heq, hsh, hsmin, hsmax, hspi, hsrec, hsunch⟩ :=
    hotRestartLoop_success cs ((newWorkloadClustersMux host).minPort - 1)
      (newWorkloadClustersMux host) hhost hh hann hnodup
  rw [hexp, heq]
  refine ⟨rfl, hspi, ?_, ?_⟩
  · intro c hc g hg
    refine ⟨freshRecord (newWorkloadClustersMux host).host c.port,
      hsrec c hc g hg, rfl, rfl, ?_⟩
    exact initListener_existing s g _ (hsrec c hc g hg)
  · intro n hn
    have h24 : (newWorkloadClustersMux host).maxPort = (24000 : Int) := rfl
    constructor
    · intro hin
      have hb : s.portIndex ≤ s.maxPort := by
        rw [hspi, hsmax, h24]
        exact hin
      refine ⟨freshRecord s.host s.portIndex, ?_, ?_⟩
      · rw [initListener_fresh_ok s n hn hb]
      · show s.portIndex = _
        exact hspi
    · intro hout
      have hb : s.maxPort < s.portIndex := by
        rw [hspi, hsmax, h24]
        exact hout
      exact ⟨_, congrArg Prod.fst (initListener_fresh_exhausted s n hn hb)⟩

/-- C9 witness: restoring ports 20005 and 20010 makes re-init of the listed
names return those ports, sets the cursor to 20011, and the next fresh init
returns 20011 — the worked example of the spec. -/
theorem claimC9_witness :
    (HotRestart (newWorkloadClustersMux "h") [clusterA20005, clusterB20010]).1
      = Except.ok () ∧
    (HotRestart (newWorkloadClustersMux "h")
      [clusterA20005, clusterB20010]).2.portIndex = 20011 ∧
    (InitWorkloadClusterListener (HotRestart (newWorkloadClustersMux "h")
      [clusterA20005, clusterB20010]).2 "C").1 = Except.ok (freshRecord "h" 20011) := by
  have h := claimC9 "h" [clusterA20005, clusterB20010] (by decide) (by decide)
    (by decide) (by decide) (by decide)
  exact ⟨h.1, h.2.1.trans (by decide), rfl⟩
